import Mathlib

/-!
Verification of `licensecheck/packageinfo.py`: package license/metadata
resolution.  The Python module is shallowly embedded: pure string
manipulation becomes Lean functions over `List Char` / `String`, and the
external world (installed-package metadata store, installed file trees,
the PyPI JSON endpoint, local config files) is an explicit environment
record.  Python exceptions are modelled with `Except`.
-/

namespace LicenseCheck

/-! ### String primitives

Core Lean `String` operations are implemented on byte positions and do not
reduce inside the kernel, so the Python string operations used by the
module (`str.split`, `str.startswith`, `str.lower`, `str.join`, substring
membership) are given structural implementations over `List Char`.
-/

/-- Worker for `pySplit`: scans left to right, splitting at each
non-overlapping occurrence of `sep` (Python `str.split(sep)` semantics).
The `fuel` argument only makes the recursion structural; it is never
exhausted when `fuel` exceeds the length of the scanned list. -/
def splitAux (sep : List Char) : Nat → List Char → List Char → List (List Char)
  | _, [], acc => [acc.reverse]
  | 0, l, acc => [acc.reverse ++ l]
  | fuel+1, c :: rest, acc =>
      if sep.isPrefixOf (c :: rest) then
        acc.reverse :: splitAux sep fuel ((c :: rest).drop sep.length) []
      else splitAux sep fuel rest (c :: acc)

/-- Python `s.split(sep)` for a non-empty separator. -/
def pySplit (s sep : String) : List String :=
  (splitAux sep.data (s.data.length + 1) s.data []).map String.mk

/-- Python `s.startswith(pre)`. -/
def startsWithStr (s pre : String) : Bool := pre.data.isPrefixOf s.data

/-- Python `s.lower()` (ASCII range, which covers package names). -/
def lowerStr (s : String) : String := String.mk (s.data.map Char.toLower)

/-- Python `sep.join(l)`. -/
def pyJoin (sep : String) : List String → String
  | [] => ""
  | [x] => x
  | x :: xs => x ++ sep ++ pyJoin sep xs

/-- Worker for `containsStr`. -/
def containsSub : List Char → List Char → Bool
  | [], pat => pat.isEmpty
  | c :: rest, pat => pat.isPrefixOf (c :: rest) || containsSub rest pat

/-- Python `pat in s` (substring membership). -/
def containsStr (s pat : String) : Bool := containsSub s.data pat.data

/-! ### Classifier Parser (`licenseFromClassifierlist`) -/

/-- The module-level sentinel `UNKNOWN = "UNKNOWN"`. -/
def UNKNOWN : String := "UNKNOWN"

/-- The final segment `val.split(" :: ")[-1]` of a classifier string.
`pySplit` never returns `[]`, so the default is never used. -/
def finalSegment (val : String) : String := ((pySplit val " :: ").getLast?).getD ""

/-- The `licenses` list accumulated by the loop in
`licenseFromClassifierlist`: for each classifier starting with
`"License"`, its final segment, unless that segment is `"OSI Approved"`. -/
def collectLicenses (classifiers : List String) : List String :=
  classifiers.filterMap fun val =>
    if startsWithStr val "License" then
      if finalSegment val ≠ "OSI Approved" then some (finalSegment val) else none
    else none

/-- Implementation of `licenseFromClassifierlist(classifiers)`: license string from a list of
project classifiers (`packageinfo.py`, lines 95–110). -/
def licenseFromClassifierlist (classifiers : List String) : String :=
  let licenses := collectLicenses classifiers
  if licenses.length > 0 then pyJoin ", " licenses else UNKNOWN

/-- Spec-worded collection (§4.1): filter the strings beginning with
`"License"`, take each one's final segment, discard `"OSI Approved"`,
keeping encounter order.  Stated independently of the source loop, for the
refinement proof of C1. -/
def specCollected (classifiers : List String) : List String :=
  ((classifiers.filter fun v => startsWithStr v "License").map finalSegment).filter
    fun s => s ≠ "OSI Approved"

/-- Spec-worded Classifier Parser (§4.1): the `", "`-joined collected
segments, or the sentinel when none were collected. -/
def licenseFromClassifierlistSpec (classifiers : List String) : String :=
  if specCollected classifiers = [] then UNKNOWN
  else pyJoin ", " (specCollected classifiers)

/-! ### Data model and environment

`PackageInfo` mirrors the dict literals built in `getPackagesFromLocal` and
`packageInfoFromPypi` (the record declared in `licensecheck.types`).
The external world is an `Env`:
  * `meta` models `importlib.metadata.metadata(name)` — `none` is
    `PackageNotFoundError`;
  * `res` models `importlib.resources.files(name)` followed by the
    `glob("**/*")` enumeration — `typeError` is the `TypeError` the source
    catches, `moduleNotFound` the `ModuleNotFoundError` the outer
    `except` clause catches, and `found` carries `(str(f), f.stat().st_size)`
    for each regular file under the package path;
  * `pypi` models `requests.get("https://pypi.org/pypi/{name}/json").json()`
    — an `Except.error` is an HTTP or JSON-parse failure.
-/

/-- One resolved dependency record (fields of the dict literals in the
source; `size` is an `int`). -/
structure PackageInfo where
  name : String
  version : String
  namever : String
  home_page : String
  author : String
  size : Int
  license : String
deriving DecidableEq

/-- Installed-package metadata: the (multi-)mapping of header keys to
values carried by the `email.Message` that `metadata.metadata` returns
(`Classifier` may repeat). -/
structure PkgMeta where
  entries : List (String × String)
deriving DecidableEq

/-- Python `pkgMetadata.get(key, default)`: first value stored under `key`. -/
def PkgMeta.getD (md : PkgMeta) (key dflt : String) : String :=
  (md.entries.lookup key).getD dflt

/-- The comprehension `[val for key, val in pkgMetadata.items() if key == "Classifier"]`. -/
def PkgMeta.classifierValues (md : PkgMeta) : List String :=
  md.entries.filterMap fun kv => if kv.1 = "Classifier" then some kv.2 else none

/-- Python exceptions the module can raise or meet. -/
inductive PyErr where
  /-- `requests` HTTP failure or JSON-parse failure. -/
  | network
  /-- `IndexError`: `response["urls"][-1]` on an empty `urls` array. -/
  | indexError
  /-- `KeyError`: missing key on a dict / config lookup. -/
  | keyError
  /-- `ValueError`: `list.remove(x)` with `x` not in the list. -/
  | valueError
deriving DecidableEq

/-- The `info` object of a PyPI JSON response. -/
structure PypiInfo where
  version : String
  home_page : String
  author : String
  classifiers : List String
  license : String
deriving DecidableEq

/-- A parsed PyPI JSON response; `urls` holds the `size` field of each
entry of the `urls` array. -/
structure PypiResponse where
  info : PypiInfo
  urls : List Int
deriving DecidableEq

/-- Outcome of `resources.files(requirement)` plus file enumeration. -/
inductive ResourceFiles where
  /-- Path enumerable: the `(str(f), f.stat().st_size)` pairs of the
  regular files under it. -/
  | found (files : List (String × Int))
  /-- `TypeError` (path not resolvable to a concrete file tree). -/
  | typeError
  /-- `ModuleNotFoundError` (package name not importable). -/
  | moduleNotFound
deriving DecidableEq

/-- The external world of the resolvers. -/
structure Env where
  meta : String → Option PkgMeta
  res : String → ResourceFiles
  pypi : String → Except PyErr PypiResponse

/-! ### `getModuleSize` and the Local Resolver -/

/-- Implementation of `getModuleSize(path, name)` (lines 172–189): sum the sizes of the
files under the path whose name does not contain `"__pycache__"`; when the
sum is not positive, fetch the package's registry entry and return the
`size` of the last element of its `urls` array. -/
def getModuleSize (env : Env) (files : List (String × Int)) (name : String) :
    Except PyErr Int :=
  let size := ((files.filter fun f => !containsStr f.1 "__pycache__").map fun f => f.2).sum
  if size > 0 then .ok size
  else match env.pypi name with
    | .error e => .error e
    | .ok response =>
      match response.urls.getLast? with
      | some s => .ok s
      | none => .error .indexError

/-- The record `getPackagesFromLocal` appends for metadata `md` and
computed size `size` (lines 49–59). -/
def localRecord (md : PkgMeta) (size : Int) : PackageInfo :=
  let lice0 := licenseFromClassifierlist md.classifierValues
  let lice := if lice0 = UNKNOWN then md.getD "License" UNKNOWN else lice0
  let name := md.getD "Name" UNKNOWN
  let version := md.getD "Version" UNKNOWN
  { name := name, version := version, namever := name ++ "-" ++ version,
    home_page := md.getD "Home-page" UNKNOWN, author := md.getD "Author" UNKNOWN,
    size := size, license := lice }

/-- Implementation of `getPackagesFromLocal(requirements)` (lines 18–62).  A name whose
metadata lookup raises `PackageNotFoundError`, or whose resource lookup
raises `ModuleNotFoundError`, is skipped silently; a `TypeError` from the
resource lookup leaves `size = 0`; any error out of `getModuleSize`
propagates. -/
def getPackagesFromLocal (env : Env) : List String → Except PyErr (List PackageInfo)
  | [] => .ok []
  | requirement :: rest =>
    match env.meta requirement with
    | none => getPackagesFromLocal env rest
    | some md =>
      match env.res requirement with
      | .moduleNotFound => getPackagesFromLocal env rest
      | .typeError =>
          match getPackagesFromLocal env rest with
          | .error e => .error e
          | .ok tail => .ok (localRecord md 0 :: tail)
      | .found files =>
          match getModuleSize env files (md.getD "Name" UNKNOWN) with
          | .error e => .error e
          | .ok size =>
            match getPackagesFromLocal env rest with
            | .error e => .error e
            | .ok tail => .ok (localRecord md size :: tail)

/-! ### Remote Resolver -/

/-- Implementation of `packageInfoFromPypi(requirements)` (lines 65–92).  Nothing is caught:
the first HTTP/parse failure (or `IndexError` on an empty `urls` array)
aborts the whole loop. -/
def packageInfoFromPypi (env : Env) : List String → Except PyErr (List PackageInfo)
  | [] => .ok []
  | pkg :: rest =>
    match env.pypi pkg with
    | .error e => .error e
    | .ok response =>
      let info := response.info
      let licenseClassifier := licenseFromClassifierlist info.classifiers
      match response.urls.getLast? with
      | none => .error .indexError
      | some size =>
        match packageInfoFromPypi env rest with
        | .error e => .error e
        | .ok tail =>
          .ok ({ name := pkg, version := info.version,
                 namever := pkg ++ " " ++ info.version,
                 home_page := info.home_page, author := info.author,
                 size := size,
                 license := if licenseClassifier ≠ UNKNOWN then licenseClassifier
                            else info.license } :: tail)

/-! ### Aggregator (`getPackages`) -/

/-- Python `list.remove(n)`: drop the first occurrence of `n`, raising
`ValueError` when `n` is absent. -/
def removeFirst : List String → String → Except PyErr (List String)
  | [], _ => .error .valueError
  | x :: xs, n =>
    if x = n then .ok xs
    else match removeFirst xs n with
      | .error e => .error e
      | .ok ys => .ok (x :: ys)

/-- The loop `for localReq in localReqs: reqs.remove(...)`: remove each
name in turn from the working list. -/
def removeAll : List String → List String → Except PyErr (List String)
  | l, [] => .ok l
  | l, n :: ns =>
    match removeFirst l n with
    | .error e => .error e
    | .ok l' => removeAll l' ns

/-- Implementation of `getPackages(reqs)` (lines 113–126), with the caller's list made
explicit: the second component of the result is the final contents of the
(mutated in place) argument `reqs`. -/
def getPackagesSt (env : Env) (reqs : List String) :
    Except PyErr (List PackageInfo × List String) :=
  match getPackagesFromLocal env reqs with
  | .error e => .error e
  | .ok localReqs =>
    match removeAll reqs (localReqs.map fun p => lowerStr p.name) with
    | .error e => .error e
    | .ok reqs' =>
      match packageInfoFromPypi env reqs' with
      | .error e => .error e
      | .ok onlineReqs => .ok (localReqs ++ onlineReqs, reqs')

/-- Implementation of `getPackages(reqs)`: the returned value alone. -/
def getPackages (env : Env) (reqs : List String) : Except PyErr (List PackageInfo) :=
  (getPackagesSt env reqs).map Prod.fst

/-- A requirement name is resolved by the Local Resolver exactly when its
metadata lookup succeeds and its resource lookup does not raise
`ModuleNotFoundError` (those two cases are skipped silently). -/
def locallyResolves (env : Env) (r : String) : Bool :=
  match env.meta r, env.res r with
  | some _, .moduleNotFound => false
  | some _, _ => true
  | none, _ => false

/-- The `Name` the local metadata store reports for a requirement. -/
def localName (env : Env) (r : String) : String :=
  match env.meta r with
  | some md => md.getD "Name" UNKNOWN
  | none => UNKNOWN

/-! ### Self-Metadata Reader (`getClassifiersLicense`) -/

/-- A parsed TOML value: a table (with its key order) or an opaque
non-table payload, tagged so distinct payloads can be told apart. -/
inductive TomlV where
  | leaf (tag : Nat)
  | table (entries : List (String × TomlV))

/-- Dict key access on a parsed TOML value (`d[k]` / `k in d` / `d.get(k)`
all go through the same lookup). -/
def TomlV.get? : TomlV → String → Option TomlV
  | .table es, k => es.lookup k
  | .leaf _, _ => none

/-- A `setup.cfg` on disk: its `[metadata]` section when it has one
(`config["metadata"]` raises `KeyError` otherwise). -/
structure CfgFile where
  metadata : Option (List (String × String))

/-- The files `getClassifiersLicense` consults; `none` means the file
does not exist.  A `pyproject.toml` that is present is assumed to parse
(malformed TOML is fatal and outside every claim). -/
structure SelfEnv where
  setupCfg : Option CfgFile
  pyproject : Option TomlV

/-- What `getClassifiersLicense` returns: the `setup.cfg` `[metadata]`
section, one of the pyproject tables, or the literal default
`{"classifiers": [], "license": ""}`. -/
inductive ClassifiersLicense where
  | cfgMetadata (entries : List (String × String))
  | tomlTable (t : TomlV)
  | defaultEmpty

/-- The `pyproject.toml` half of `getClassifiersLicense` (lines 139–149):
`pyproject["tool"]` (a `KeyError` when absent), then `tool["poetry"]`,
then `tool["flit"]["metadata"]`, then `pyproject.get("project")`, else
the empty default. -/
def classifiersFromPyproject (env : SelfEnv) : Except PyErr ClassifiersLicense :=
  match env.pyproject with
  | none => .ok .defaultEmpty
  | some pyproject =>
    match pyproject.get? "tool" with
    | none => .error .keyError
    | some tool =>
      match tool.get? "poetry" with
      | some p => .ok (.tomlTable p)
      | none =>
        match tool.get? "flit" with
        | some flit =>
          match flit.get? "metadata" with
          | some m => .ok (.tomlTable m)
          | none => .error .keyError
        | none =>
          match pyproject.get? "project" with
          | some proj => .ok (.tomlTable proj)
          | none => .ok .defaultEmpty

/-- Implementation of `getClassifiersLicense()` (lines 128–149): prefer a `setup.cfg` whose
`[metadata]` section has a `license` key; otherwise fall through to
`pyproject.toml`. -/
def getClassifiersLicense (env : SelfEnv) : Except PyErr ClassifiersLicense :=
  match env.setupCfg with
  | some cfg =>
    match cfg.metadata with
    | none => .error .keyError
    | some md =>
      if (md.lookup "license").isSome then .ok (.cfgMetadata md)
      else classifiersFromPyproject env
  | none => classifiersFromPyproject env

/-! ### Concrete environments used to evaluate the theorems -/

/-- Metadata the store reports for `"alpha"`. -/
def mdAlpha : PkgMeta := ⟨[("Name", "alpha")]⟩

/-- Registry entry for `"beta"`. -/
def respBeta : PypiResponse := ⟨⟨"1.0", "http://beta", "bea", [], "MIT"⟩, [17]⟩

/-- A world in which `"alpha"` is installed (size lookup unsupported),
`"beta"` is only on the registry, and every other registry query fails. -/
def envW : Env where
  meta r := if r = "alpha" then some mdAlpha else none
  res _ := .typeError
  pypi r := if r = "beta" then .ok respBeta else .error .network

/-- The remote record `packageInfoFromPypi` builds for `"beta"` in `envW`. -/
def remoteBeta : PackageInfo :=
  { name := "beta", version := "1.0", namever := "beta 1.0",
    home_page := "http://beta", author := "bea", size := 17, license := "MIT" }

/-- Metadata the store reports for the requirement `"Requests"`: the
store's own casing of the name is `"requests"`. -/
def mdRequests : PkgMeta := ⟨[("Name", "requests")]⟩

/-- Registry entry for `"Requests"`. -/
def respRequests : PypiResponse := ⟨⟨"2.0", "http://r", "ra", [], "Apache"⟩, [5]⟩

/-- A world in which the requirement `"Requests"` has installed metadata
(reported name `"requests"`) and a registry entry. -/
def envC3 : Env where
  meta r := if r = "Requests" then some mdRequests else none
  res _ := .typeError
  pypi r := if r = "Requests" then .ok respRequests else .error .network

/-- The remote record `packageInfoFromPypi` builds for `"Requests"` in
`envC3`. -/
def remoteRequests : PackageInfo :=
  { name := "Requests", version := "2.0", namever := "Requests 2.0",
    home_page := "http://r", author := "ra", size := 5, license := "Apache" }

/-- A `pyproject.toml` carrying both a `tool.poetry` table (payload `1`)
and a `project` table (payload `2`). -/
def ppC4 : TomlV := .table [("tool", .table [("poetry", .leaf 1)]), ("project", .leaf 2)]

/-- No `setup.cfg`; `pyproject.toml` is `ppC4`. -/
def envC4 : SelfEnv := ⟨none, some ppC4⟩

/-- A well-formed `pyproject.toml` with a `project` table but no
top-level `tool` table. -/
def ppC9 : TomlV := .table [("project", .leaf 3)]

/-- No `setup.cfg`; `pyproject.toml` is `ppC9`. -/
def envC9 : SelfEnv := ⟨none, some ppC9⟩

/-- Registry entry for `"pkg"`, whose `urls` array ends with size `42`. -/
def respC10 : PypiResponse := ⟨⟨"3.0", "h", "a", [], "X"⟩, [7, 42]⟩

/-- A world for exercising `getModuleSize`'s registry fallback. -/
def envC10 : Env where
  meta _ := none
  res _ := .typeError
  pypi r := if r = "pkg" then .ok respC10 else .error .network

/-! ### C1 — Classifier Parser refinement -/

lemma collectLicenses_eq_specCollected (cs : List String) :
    collectLicenses cs = specCollected cs := by
  induction cs with
  | nil => rfl
  | cons v rest ih =>
    by_cases h1 : startsWithStr v "License" = true
    · by_cases h2 : finalSegment v = "OSI Approved"
      · simpa [collectLicenses, specCollected, List.filterMap_cons, h1, h2] using ih
      · simpa [collectLicenses, specCollected, List.filterMap_cons, h1, h2] using ih
    · simpa [collectLicenses, specCollected, List.filterMap_cons, h1] using ih

/-- C1: `licenseFromClassifierlist` returns the `", "`-joined sequence of
final segments of the `"License"`-prefixed classifiers (split on `" :: "`),
with the literal segment `"OSI Approved"` discarded, in encounter order,
and the sentinel `"UNKNOWN"` when no segment is collected. -/
theorem licenseFromClassifierlist_correct (classifiers : List String) :
    licenseFromClassifierlist classifiers = licenseFromClassifierlistSpec classifiers := by
  unfold licenseFromClassifierlist licenseFromClassifierlistSpec
  rw [collectLicenses_eq_specCollected]
  rcases h : specCollected classifiers with _ | ⟨a, l⟩ <;> simp [h]

/-! ### C9 — missing `tool` table is a `KeyError` -/

/-- C9: with no `setup.cfg` and a well-formed `pyproject.toml` that has a
`project` table but no top-level `tool` table, `getClassifiersLicense`
raises an uncaught `KeyError` on the `pyproject["tool"]` lookup instead of
checking the `project` table or returning the empty default. -/
theorem getClassifiersLicense_keyError_without_tool :
    envC9.setupCfg = none ∧
    ppC9.get? "tool" = none ∧
    ppC9.get? "project" = some (.leaf 3) ∧
    getClassifiersLicense envC9 = .error .keyError :=
  ⟨rfl, rfl, rfl, rfl⟩

/-! ### C4 — `tool.poetry` wins over `project`, not the other way -/

/-- C4, counterexample: with no `setup.cfg` and a `pyproject.toml` holding
both a `tool.poetry` table (payload `1`) and a `project` table (payload
`2`), `getClassifiersLicense` returns the poetry table, not the `project`
table the claim promises. -/
theorem getClassifiersLicense_c4_counterexample :
    envC4.setupCfg = none ∧
    ppC4.get? "project" = some (.leaf 2) ∧
    ppC4.get? "tool" = some (.table [("poetry", .leaf 1)]) ∧
    getClassifiersLicense envC4 = .ok (.tomlTable (.leaf 1)) ∧
    getClassifiersLicense envC4 ≠ .ok (.tomlTable (.leaf 2)) := by
  refine ⟨rfl, rfl, rfl, rfl, ?_⟩
  intro h
  rw [show getClassifiersLicense envC4 = .ok (.tomlTable (.leaf 1)) from rfl] at h
  simp at h

/-- C4, amended: when `setup.cfg` is absent and `pyproject.toml` has a
`tool` table, a `tool.poetry` table is returned even when a `project`
table is also present (poetry is checked first); the `project` table is
checked last, i.e. returned only when neither `tool.poetry` nor
`tool.flit` exists. -/
theorem getClassifiersLicense_poetry_first (env : SelfEnv) (pp tool : TomlV)
    (h1 : env.setupCfg = none) (h2 : env.pyproject = some pp)
    (h3 : pp.get? "tool" = some tool) :
    (∀ p, tool.get? "poetry" = some p → (pp.get? "project").isSome →
        getClassifiersLicense env = .ok (.tomlTable p))
    ∧ (∀ proj, tool.get? "poetry" = none → tool.get? "flit" = none →
        pp.get? "project" = some proj →
        getClassifiersLicense env = .ok (.tomlTable proj)) := by
  constructor
  · intro p hp _
    simp [getClassifiersLicense, classifiersFromPyproject, h1, h2, h3, hp]
  · intro proj hpo hfl hproj
    simp [getClassifiersLicense, classifiersFromPyproject, h1, h2, h3, hpo, hfl, hproj]

/-- Witness for the amended C4, at `envC4`. -/
theorem getClassifiersLicense_poetry_first_witness :
    getClassifiersLicense envC4 = .ok (.tomlTable (.leaf 1)) :=
  (getClassifiersLicense_poetry_first envC4 ppC4 (.table [("poetry", .leaf 1)])
    rfl rfl rfl).1 (.leaf 1) rfl (by rfl)

/-! ### C3 — casing mismatch causes a duplicate lookup -/

/-- C3: on the input list `["Requests", "requests"]` in the world `envC3`
(the store reports the name `"requests"` for `"Requests"`), the name
`"Requests"` is resolved locally, yet `reqs.remove` deletes the other
element, so `"Requests"` stays on the working list and is looked up by
the Remote Resolver as well; no failure occurs. -/
theorem getPackages_duplicate_lookup :
    locallyResolves envC3 "Requests" = true ∧
    lowerStr (localName envC3 "Requests") ≠ "Requests" ∧
    getPackagesSt envC3 ["Requests", "requests"] =
      .ok ([localRecord mdRequests 0, remoteRequests], ["Requests"]) := by
  refine ⟨rfl, ?_, rfl⟩
  intro h
  rw [show lowerStr (localName envC3 "Requests") = "requests" from rfl] at h
  simp at h

/-! ### C10 — `getModuleSize` falls back to the registry -/

/-- C10: when the non-`__pycache__` files under an enumerable package path
sum to `0`, `getModuleSize` does not return that local `0`: it issues the
registry GET, propagating a network failure unchanged and otherwise
returning the `size` of the last entry of the response's `urls` array. -/
theorem getModuleSize_zero_fetches (env : Env) (files : List (String × Int))
    (name : String)
    (h : ((files.filter fun f => !containsStr f.1 "__pycache__").map fun f => f.2).sum = 0) :
    (∀ e, env.pypi name = .error e → getModuleSize env files name = .error e)
    ∧ (∀ resp s, env.pypi name = .ok resp → resp.urls.getLast? = some s →
        getModuleSize env files name = .ok s) := by
  constructor
  · intro e he
    simp [getModuleSize, h, he]
  · intro resp s hr hs
    simp [getModuleSize, h, hr, hs]

/-- Witness for C10: a package whose only file is a `__pycache__`
artifact; the registry reports 42 bytes. -/
theorem getModuleSize_zero_fetches_witness :
    getModuleSize envC10 [("lib/__pycache__/a.pyc", 5)] "pkg" = .ok 42 :=
  (getModuleSize_zero_fetches envC10 [("lib/__pycache__/a.pyc", 5)] "pkg"
    (by decide)).2 respC10 42 rfl rfl

/-! ### C7 — `TypeError` on the resource lookup means size 0, no error -/

/-- C7: a locally-resolved package whose resource lookup raises
`TypeError` contributes a record with `size = 0`, and
`getPackagesFromLocal` raises nothing on its account. -/
theorem local_typeError_size_zero (env : Env) (r : String) (rest : List String)
    (md : PkgMeta) (h1 : env.meta r = some md) (h2 : env.res r = .typeError) :
    getPackagesFromLocal env (r :: rest) =
      (getPackagesFromLocal env rest).map (fun tail => localRecord md 0 :: tail)
    ∧ (localRecord md 0).size = 0 := by
  refine ⟨?_, rfl⟩
  simp only [getPackagesFromLocal, h1, h2]
  cases getPackagesFromLocal env rest <;> rfl

/-- Witness for C7, at `envW` and the requirement `"alpha"`. -/
theorem local_typeError_size_zero_witness :
    (getPackagesFromLocal envW ["alpha"] =
      (getPackagesFromLocal envW []).map (fun tail => localRecord mdAlpha 0 :: tail))
    ∧ (localRecord mdAlpha 0).size = 0 :=
  local_typeError_size_zero envW "alpha" [] mdAlpha rfl rfl

/-! ### C6 — the Remote Resolver catches nothing -/

/-- C6: when any requested name's registry query fails (HTTP or JSON
parse), `packageInfoFromPypi` returns an error — nothing is caught, no
name is silently skipped. -/
theorem packageInfoFromPypi_propagates (env : Env) (reqs : List String)
    (h : ∃ r ∈ reqs, ∃ e, env.pypi r = .error e) :
    ∃ e, packageInfoFromPypi env reqs = .error e := by
  induction reqs with
  | nil => simp at h
  | cons p rest ih =>
    cases hp : env.pypi p with
    | error e => exact ⟨e, by simp [packageInfoFromPypi, hp]⟩
    | ok resp =>
      obtain ⟨r, hr, e, he⟩ := h
      rcases List.mem_cons.mp hr with heq | hmem
      · rw [heq, hp] at he
        cases he
      · obtain ⟨e', he'⟩ := ih ⟨r, hmem, e, he⟩
        cases hl : resp.urls.getLast? with
        | none => exact ⟨.indexError, by simp [packageInfoFromPypi, hp, hl]⟩
        | some s => exact ⟨e', by simp [packageInfoFromPypi, hp, hl, he']⟩

/-- Witness for C6: `"omega"` has no registry entry in `envW`. -/
theorem packageInfoFromPypi_propagates_witness :
    ∃ e, packageInfoFromPypi envW ["omega"] = .error e :=
  packageInfoFromPypi_propagates envW ["omega"] ⟨"omega", by simp, .network, rfl⟩

/-! ### The Local Resolver resolves exactly the `locallyResolves` names -/

lemma getPackagesFromLocal_names (env : Env) :
    ∀ reqs localReqs, getPackagesFromLocal env reqs = .ok localReqs →
      localReqs.map (fun p => p.name) =
        (reqs.filter (locallyResolves env)).map (localName env) := by
  intro reqs
  induction reqs with
  | nil =>
    intro l h
    simp only [getPackagesFromLocal] at h
    injection h with h
    subst h
    rfl
  | cons r rest ih =>
    intro l h
    simp only [getPackagesFromLocal] at h
    split at h
    next hm =>
      have hP : locallyResolves env r = false := by simp [locallyResolves, hm]
      simp only [List.filter_cons, hP, if_false, Bool.false_eq_true]
      exact ih l h
    next md hm =>
      split at h
      next hres =>
        have hP : locallyResolves env r = false := by simp [locallyResolves, hm, hres]
        simp only [List.filter_cons, hP, if_false, Bool.false_eq_true]
        exact ih l h
      next hres =>
        have hP : locallyResolves env r = true := by simp [locallyResolves, hm, hres]
        split at h
        next e hrec => simp at h
        next tail hrec =>
          injection h with h
          subst h
          have hname : (localRecord md 0).name = localName env r := by
            simp [localRecord, localName, hm]
          simp [List.filter_cons, hP, hname, ih tail hrec]
      next files hres =>
        have hP : locallyResolves env r = true := by simp [locallyResolves, hm, hres]
        split at h
        next e hms => simp at h
        next size hms =>
          split at h
          next e hrec => simp at h
          next tail hrec =>
            injection h with h
            subst h
            have hname : (localRecord md size).name = localName env r := by
              simp [localRecord, localName, hm]
            simp [List.filter_cons, hP, hname, ih tail hrec]

/-! ### C5 — unresolved names are dropped silently -/

/-- C5: names whose metadata lookup signals not-found are no-ops for
`getPackagesFromLocal` — dropping them from the input changes nothing
(no error, no record) — and a successful run yields exactly one record
per successfully resolved name. -/
theorem getPackagesFromLocal_skips_absent (env : Env) (reqs : List String) :
    getPackagesFromLocal env reqs =
      getPackagesFromLocal env (reqs.filter fun r => (env.meta r).isSome)
    ∧ ∀ localReqs, getPackagesFromLocal env reqs = .ok localReqs →
        localReqs.length = (reqs.filter (locallyResolves env)).length := by
  constructor
  · induction reqs with
    | nil => rfl
    | cons r rest ih =>
      cases hm : env.meta r with
      | none =>
        have hf : ((r :: rest).filter fun x => (env.meta x).isSome) =
            rest.filter fun x => (env.meta x).isSome := by
          simp [List.filter_cons, hm]
        rw [hf]
        simp only [getPackagesFromLocal]
        rw [hm]
        exact ih
      | some md =>
        have hf : ((r :: rest).filter fun x => (env.meta x).isSome) =
            r :: rest.filter fun x => (env.meta x).isSome := by
          simp [List.filter_cons, hm]
        rw [hf]
        simp only [getPackagesFromLocal]
        rw [hm, ih]
  · intro localReqs h
    have hn := congrArg List.length (getPackagesFromLocal_names env reqs localReqs h)
    simpa using hn

/-- Witness for C5, at `envW` with one installed and one missing name. -/
theorem getPackagesFromLocal_skips_absent_witness :
    ([localRecord mdAlpha 0] : List PackageInfo).length =
      ((["alpha", "delta"].filter (locallyResolves envW)).length) :=
  (getPackagesFromLocal_skips_absent envW ["alpha", "delta"]).2 [localRecord mdAlpha 0] rfl

/-! ### Removal lemmas for the Aggregator -/

lemma removeAll_cons_of_ne (a : String) :
    ∀ (names l : List String), (∀ x ∈ names, x ≠ a) →
      removeAll (a :: l) names = (removeAll l names).map fun ys => a :: ys := by
  intro names
  induction names with
  | nil => intro l _; rfl
  | cons n ns ih =>
    intro l h
    have hna : ¬(a = n) := fun hh => (h n (by simp)) hh.symm
    cases hrf : removeFirst l n with
    | error e => simp [removeAll, removeFirst, hna, hrf, Except.map]
    | ok ys =>
      simp only [removeAll, removeFirst, hna, if_false, hrf]
      exact ih ys fun x hx => h x (by simp [hx])

lemma removeAll_filter (P : String → Bool) :
    ∀ l : List String, removeAll l (l.filter P) = .ok (l.filter fun x => !P x) := by
  intro l
  induction l with
  | nil => rfl
  | cons a l ih =>
    by_cases hP : P a = true
    · simp [List.filter_cons, hP, removeAll, removeFirst, ih]
    · have hP' : P a = false := by simpa using hP
      have hmem : ∀ x ∈ l.filter P, x ≠ a := by
        intro x hx hxa
        subst hxa
        have := (List.mem_filter.mp hx).2
        rw [hP'] at this
        cases this
      simp [List.filter_cons, hP', removeAll_cons_of_ne a (l.filter P) l hmem, ih,
        Except.map]

/-! ### C2 — each name is resolved by exactly one resolver -/

/-- C2: when every locally-resolved requirement equals the lowercase of
the name the metadata store reports for it, `getPackages` hands the
Remote Resolver exactly the names the Local Resolver did not resolve
(every removal succeeds), returns the local results followed by the
remote results, and no input name is both locally resolved and remotely
queried. -/
theorem getPackages_partitions (env : Env) (reqs : List String)
    (localReqs : List PackageInfo)
    (hloc : getPackagesFromLocal env reqs = .ok localReqs)
    (hcase : ∀ r ∈ reqs, locallyResolves env r = true → lowerStr (localName env r) = r) :
    getPackagesSt env reqs =
      (packageInfoFromPypi env (reqs.filter fun r => !locallyResolves env r)).map
        (fun onlineReqs => (localReqs ++ onlineReqs,
          reqs.filter fun r => !locallyResolves env r))
    ∧ ∀ r ∈ reqs, ¬(locallyResolves env r = true ∧
        r ∈ reqs.filter fun r => !locallyResolves env r) := by
  have hnames := getPackagesFromLocal_names env reqs localReqs hloc
  have hremove : removeAll reqs (localReqs.map fun p => lowerStr p.name) =
      .ok (reqs.filter fun r => !locallyResolves env r) := by
    have h1 : (localReqs.map fun p => lowerStr p.name) =
        (reqs.filter (locallyResolves env)).map fun r => lowerStr (localName env r) := by
      have := congrArg (List.map lowerStr) hnames
      simpa [List.map_map, Function.comp] using this
    have h2 : ((reqs.filter (locallyResolves env)).map fun r => lowerStr (localName env r)) =
        reqs.filter (locallyResolves env) := by
      have : ∀ r ∈ reqs.filter (locallyResolves env), lowerStr (localName env r) = r := by
        intro r hr
        exact hcase r (List.mem_filter.mp hr).1 (List.mem_filter.mp hr).2
      calc (reqs.filter (locallyResolves env)).map (fun r => lowerStr (localName env r))
          = (reqs.filter (locallyResolves env)).map id := List.map_congr_left this
        _ = reqs.filter (locallyResolves env) := List.map_id _
    rw [h1, h2]
    exact removeAll_filter (locallyResolves env) reqs
  constructor
  · simp only [getPackagesSt, hloc, hremove]
    cases hpy : packageInfoFromPypi env (reqs.filter fun r => !locallyResolves env r) <;>
      simp [hpy, Except.map]
  · rintro r _ ⟨h1, h2⟩
    have := (List.mem_filter.mp h2).2
    rw [h1] at this
    cases this

/-- Witness for C2, in `envW` on `["alpha", "beta"]`: `"alpha"` resolves
locally, `"beta"` goes to the registry, nothing is resolved twice. -/
theorem getPackages_partitions_witness :
    getPackagesSt envW ["alpha", "beta"] =
      (packageInfoFromPypi envW (["alpha", "beta"].filter fun r => !locallyResolves envW r)).map
        (fun onlineReqs => ([localRecord mdAlpha 0] ++ onlineReqs,
          ["alpha", "beta"].filter fun r => !locallyResolves envW r))
    ∧ ∀ r ∈ ["alpha", "beta"], ¬(locallyResolves envW r = true ∧
        r ∈ ["alpha", "beta"].filter fun r => !locallyResolves envW r) :=
  getPackages_partitions envW ["alpha", "beta"] [localRecord mdAlpha 0] rfl (by decide)

/-! ### Counting lemmas for the removal loop -/

lemma removeFirst_count :
    ∀ {l l' : List String} {n : String}, removeFirst l n = .ok l' →
      ∀ s, l.count s = l'.count s + (if s = n then 1 else 0) := by
  intro l
  induction l with
  | nil => intro l' n h; simp [removeFirst] at h
  | cons x xs ih =>
    intro l' n h s
    by_cases hx : x = n
    · simp only [removeFirst, if_pos hx] at h
      injection h with h
      subst h
      subst hx
      by_cases hsx : s = x
      · simp [List.count_cons, hsx]
      · have hxs : ¬(x = s) := fun hh => hsx hh.symm
        simp [List.count_cons, hsx, hxs]
    · simp only [removeFirst, if_neg hx] at h
      split at h
      next e hrf => simp at h
      next ys hrf =>
        injection h with h
        subst h
        have hc := ih hrf s
        by_cases hsn : s = n
        · simp [List.count_cons, hsn] at hc ⊢
          omega
        · have hns : ¬(n = s) := fun hh => hsn hh.symm
          simp [List.count_cons, hsn, hns] at hc ⊢
          omega

lemma removeAll_count :
    ∀ {names l l' : List String}, removeAll l names = .ok l' →
      ∀ s, l.count s = l'.count s + names.count s := by
  intro names
  induction names with
  | nil =>
    intro l l' h s
    simp only [removeAll] at h
    injection h with h
    subst h
    simp
  | cons n ns ih =>
    intro l l' h s
    simp only [removeAll] at h
    split at h
    next e hrf => simp at h
    next l1 hrf =>
      have h1 := removeFirst_count hrf s
      have h2 := ih h s
      by_cases hsn : s = n
      · subst hsn
        simp [List.count_cons] at h1 ⊢
        omega
      · have hns : ¬(n = s) := fun hh => hsn hh.symm
        simp [List.count_cons, hsn, hns] at h1 ⊢
        omega

lemma removeFirst_length :
    ∀ {l l' : List String} {n : String}, removeFirst l n = .ok l' →
      l.length = l'.length + 1 := by
  intro l
  induction l with
  | nil => intro l' n h; simp [removeFirst] at h
  | cons x xs ih =>
    intro l' n h
    by_cases hx : x = n
    · simp only [removeFirst, if_pos hx] at h
      injection h with h
      subst h
      rfl
    · simp only [removeFirst, if_neg hx] at h
      split at h
      next e hrf => simp at h
      next ys hrf =>
        injection h with h
        subst h
        simp [List.length_cons, ih hrf]

lemma removeAll_length :
    ∀ {names l l' : List String}, removeAll l names = .ok l' →
      l.length = l'.length + names.length := by
  intro names
  induction names with
  | nil =>
    intro l l' h
    simp only [removeAll] at h
    injection h with h
    subst h
    simp
  | cons n ns ih =>
    intro l l' h
    simp only [removeAll] at h
    split at h
    next e hrf => simp at h
    next l1 hrf =>
      have h1 := removeFirst_length hrf
      have h2 := ih h
      simp only [List.length_cons]
      omega

/-! ### C8 — `getPackages` mutates the caller's `reqs` in place -/

/-- C8: after a successful `getPackages(reqs)`, the caller's list has lost
one occurrence of the lowercase name of every locally-resolved package
(occurrence counts drop accordingly), so whenever anything resolved
locally the argument no longer holds its original contents. -/
theorem getPackages_mutates_reqs (env : Env) (reqs : List String)
    (localReqs out : List PackageInfo) (reqs' : List String)
    (hloc : getPackagesFromLocal env reqs = .ok localReqs)
    (hst : getPackagesSt env reqs = .ok (out, reqs')) :
    (∀ s, reqs.count s =
        reqs'.count s + (localReqs.map fun p => lowerStr p.name).count s)
    ∧ (localReqs ≠ [] → reqs' ≠ reqs) := by
  simp only [getPackagesSt, hloc] at hst
  split at hst
  next e hrem => simp at hst
  next l2 hrem =>
    split at hst
    next e hpy => simp at hst
    next onlineReqs hpy =>
      injection hst with hst
      have hsnd : l2 = reqs' := congrArg Prod.snd hst
      subst hsnd
      constructor
      · exact removeAll_count hrem
      · intro hne heq
        have hlen := removeAll_length hrem
        rw [heq] at hlen
        have hzero : (localReqs.map fun p => lowerStr p.name).length = 0 := by omega
        exact hne (List.length_eq_zero.mp (by simpa using hzero))

/-- Witness for C8, in `envW` on `["alpha", "beta"]`: `"alpha"` is
removed from the caller's list. -/
theorem getPackages_mutates_reqs_witness :
    (∀ s, (["alpha", "beta"] : List String).count s =
        (["beta"] : List String).count s +
          (([localRecord mdAlpha 0] : List PackageInfo).map fun p => lowerStr p.name).count s)
    ∧ (([localRecord mdAlpha 0] : List PackageInfo) ≠ [] →
        (["beta"] : List String) ≠ ["alpha", "beta"]) :=
  getPackages_mutates_reqs envW ["alpha", "beta"] [localRecord mdAlpha 0]
    [localRecord mdAlpha 0, remoteBeta] ["beta"] rfl rfl

end LicenseCheck
